import Mathlib

/-!
Shallow embedding of the COINiD/node-mock-server record-replay engine
(src/index.js).  JavaScript strings are Lean `String`s, byte buffers are
`List Nat`, the filesystem is an association list from paths to file
contents, and the external collaborators (axios, socket.io client,
fs write success) are an explicit `Env` record.  Thrown exceptions are
modelled with `Option`/`Except`.
-/

namespace MockSrv

/-! JavaScript string primitives used by src/index.js, modelled on
`List Char`.  `hasPrefixChars pat cs` tests whether `pat` is a prefix of
`cs`; `indexOfSubAux` scans for the first occurrence of a pattern, giving
the semantics of JavaScript `String.prototype.indexOf` (as an `Option`
instead of `-1`). -/

def hasPrefixChars : List Char → List Char → Bool
  | [], _ => true
  | _ :: _, [] => false
  | p :: ps, c :: cs => p = c && hasPrefixChars ps cs

def indexOfSubAux (pat : List Char) : List Char → Nat → Option Nat
  | [], i => if pat = [] then some i else none
  | c :: cs, i =>
    if hasPrefixChars pat (c :: cs) then some i
    else indexOfSubAux pat cs (i + 1)

/-- Model of JavaScript `s.indexOf(pat)`, returning `none` for `-1`. -/
def indexOfSub (s pat : String) : Option Nat :=
  indexOfSubAux pat.data s.data 0

/-- Model of JavaScript `s.indexOf(pat) !== -1`. -/
def containsSub (s pat : String) : Bool :=
  (indexOfSub s pat).isSome

/-- Model of JavaScript `s.substring(n)`. -/
def jsSubstringFrom (s : String) (n : Nat) : String :=
  String.mk (s.data.drop n)

/-- Model of JavaScript `s.replace(pat, rep)` with a string pattern:
only the first occurrence is replaced. -/
def replaceFirst (s pat rep : String) : String :=
  match indexOfSub s pat with
  | none => s
  | some i =>
    String.mk (s.data.take i ++ rep.data ++ s.data.drop (i + pat.data.length))

/-- Segment splitter for JavaScript `s.split(sep)` with a non-empty
string separator: non-overlapping occurrences, scanned left to right.
The fuel is an upper bound on the scanned characters. -/
def splitOnSubGo (sep : List Char) : Nat → List Char → List Char → List (List Char)
  | 0, _, acc => [acc.reverse]
  | fuel + 1, cs, acc =>
    if hasPrefixChars sep cs then
      acc.reverse :: splitOnSubGo sep fuel (cs.drop sep.length) []
    else
      match cs with
      | [] => [acc.reverse]
      | c :: cs' => splitOnSubGo sep fuel cs' (c :: acc)

/-- Model of JavaScript `s.split(sep)`. -/
def jsSplit (s sep : String) : List String :=
  (splitOnSubGo sep.data (s.data.length + 1) s.data []).map String.mk

/-- Model of JavaScript `s.slice(-1)`: the last character as a string,
or the empty string. -/
def jsSliceLast (s : String) : String :=
  match s.data.getLast? with
  | some c => String.mk [c]
  | none => ""

/-- Hex digit value, for percent-decoding. -/
def hexVal (c : Char) : Option Nat :=
  if '0' ≤ c ∧ c ≤ '9' then some (c.toNat - '0'.toNat)
  else if 'a' ≤ c ∧ c ≤ 'f' then some (c.toNat - 'a'.toNat + 10)
  else if 'A' ≤ c ∧ c ≤ 'F' then some (c.toNat - 'A'.toNat + 10)
  else none

/-- Core of `decodeURIComponent`: percent escapes are decoded to the
escaped code point, a malformed escape throws (`none`).  Multi-byte UTF-8
sequence validation of the real builtin is not modelled; the server's
inputs of interest contain ASCII escapes only. -/
def percentDecode : List Char → Option (List Char)
  | [] => some []
  | '%' :: a :: b :: rest =>
    match hexVal a, hexVal b with
    | some x, some y => (percentDecode rest).map (fun l => Char.ofNat (16 * x + y) :: l)
    | _, _ => none
  | '%' :: _ => none
  | c :: rest => (percentDecode rest).map (fun l => c :: l)

/-- Model of JavaScript `decodeURIComponent`; `none` models the thrown
`URIError` on a malformed escape sequence. -/
def decodeURIComponent (s : String) : Option String :=
  (percentDecode s.data).map String.mk

/-! Model of the WHATWG `new URL(input)` parser, for the http(s)-style
absolute URLs this server handles: a valid scheme followed by `://`, a
non-empty host (lower-cased, as the real parser does for ASCII), a
pathname defaulting to `/`, and the trailing search part.  Inputs that do
not have this shape are unparseable (`none`, modelling the thrown
`TypeError`).  Default-port elision, path normalization and exotic
schemes of the real parser are not modelled. -/

structure URLRec where
  href : String
  host : String
  pathname : String
  origin : String
  deriving DecidableEq, Repr

def schemeOk (cs : List Char) : Bool :=
  match cs with
  | [] => false
  | c :: rest => c.isAlpha && rest.all (fun d => d.isAlphanum || d = '+' || d = '-' || d = '.')

def parseURL (s : String) : Option URLRec :=
  match indexOfSub s "://" with
  | none => none
  | some i =>
    let scheme := s.data.take i
    if schemeOk scheme then
      let rest := s.data.drop (i + 3)
      let host := rest.takeWhile (fun c => ¬(c = '/' ∨ c = '?' ∨ c = '#'))
      if host = [] then none
      else
        let hostL := host.map Char.toLower
        let after := rest.drop host.length
        let path := after.takeWhile (fun c => ¬(c = '?' ∨ c = '#'))
        let search := after.drop path.length
        let pathn := if path = [] then ['/'] else path
        let originChars := scheme ++ (':' :: '/' :: '/' :: hostL)
        some { href := String.mk (originChars ++ pathn ++ search)
             , host := String.mk hostL
             , pathname := String.mk pathn
             , origin := String.mk originChars }
    else none

/-! Data model.  A JavaScript header object is an insertion-ordered
association list with distinct keys; property access `obj[k]` is the
first match.  `jsGet` models plain property access (`undefined` is
`none`); `jsTruthyGet` additionally applies JavaScript truthiness (the
empty string is falsy, as in `if (!fullHeaders[k])`). -/

abbrev HeaderMap := List (String × String)

def jsGet (m : HeaderMap) (k : String) : Option String :=
  (m.find? (fun e => e.1 == k)).map (fun e => e.2)

def jsTruthyGet (m : HeaderMap) (k : String) : Option String :=
  match jsGet m k with
  | some v => if v = "" then none else some v
  | none => none

/-- The `requestData` values built by the server.  `http` is built in
`recordReplayData` with insertion order `{host, pathname, href, method,
headers, body}`; `ws` is built in the socket.io connection handler with
insertion order `{host, href, data, pathname, method}`.  The HTTP `body`
field stands for the serialized form of the parsed request body, and the
`ws` `data` field models a string-valued socket.io message payload. -/
inductive RequestData where
  | http (host pathname href method : String) (headers : HeaderMap) (body : String)
  | ws (host href data pathname method : String)
  deriving DecidableEq, Repr

def RequestData.hostOf : RequestData → String
  | .http h _ _ _ _ _ => h
  | .ws h _ _ _ _ => h

def RequestData.pathnameOf : RequestData → String
  | .http _ p _ _ _ _ => p
  | .ws _ _ _ p _ => p

def RequestData.methodOf : RequestData → String
  | .http _ _ _ m _ _ => m
  | .ws _ _ _ _ m => m

/-! Serialization: `JSON.stringify` on the exact object shapes the
server builds, with insertion-order keys.  String values are embedded
without escaping (the escape machinery of the real serializer is not
modelled; round-trip lemmas below therefore carry a "no quote, no
backslash" cleanliness hypothesis).  The HTTP `body` is embedded raw,
standing for the serialized body value. -/

def quoteChars (s : String) : List Char :=
  '"' :: s.data ++ ['"']

def printPairsList : HeaderMap → List Char
  | [] => []
  | [(k, v)] => quoteChars k ++ ':' :: quoteChars v
  | (k, v) :: ps => quoteChars k ++ ':' :: quoteChars v ++ ',' :: printPairsList ps

/-- Model of `JSON.stringify` on a flat string-valued object. -/
def printObj (m : HeaderMap) : List Char :=
  '\x7b' :: printPairsList m ++ ['\x7d']

def reqChars : RequestData → List Char
  | .http host pathname href method headers body =>
    "\x7b\"host\":\"".data ++ (host.data
      ++ ("\",\"pathname\":\"".data ++ (pathname.data
      ++ ("\",\"href\":\"".data ++ (href.data
      ++ ("\",\"method\":\"".data ++ (method.data
      ++ ("\",\"headers\":".data ++ (printObj headers
      ++ (",\"body\":".data ++ (body.data ++ ['\x7d'])))))))))))
  | .ws host href data pathname method =>
    "\x7b\"host\":\"".data ++ (host.data
      ++ ("\",\"href\":\"".data ++ (href.data
      ++ ("\",\"data\":\"".data ++ (data.data
      ++ ("\",\"pathname\":\"".data ++ (pathname.data
      ++ ("\",\"method\":\"".data ++ (method.data ++ "\"\x7d".data)))))))))

/-- Model of `JSON.stringify(requestData)`. -/
def stringifyRequestData (rd : RequestData) : String :=
  String.mk (reqChars rd)

/-- Model of the `md5` npm package: an arbitrary pure function from the
input string to a digest string.  The engine's claims depend only on
`md5` being a function (equal inputs give equal digests), not on the
digest algorithm, so a simple polynomial hash stands in for the real
128-bit digest. -/
def md5 (s : String) : String :=
  Nat.repr (s.data.foldl (fun a c => (a * 131 + c.toNat) % (2 ^ 128)) 0)

/-- The `uniqueReqId` computed in `getSnapshotFiles`:
`md5(JSON.stringify(requestData))`. -/
def fingerprint (rd : RequestData) : String :=
  md5 (stringifyRequestData rd)

def SNAPSHOT_DIR : String := "__mock-server-snapshots__"

/-- Model of node's `path.dirname`: everything before the last `/`. -/
def jsDirname (s : String) : String :=
  match indexOfSubAux ['/'] s.data.reverse 0 with
  | some i => String.mk (s.data.take (s.data.length - 1 - i))
  | none => s

structure SnapshotFiles where
  directory : String
  info : String
  data : String
  deriving DecidableEq, Repr

/-- Embedding of `getSnapshotFiles` (src/index.js lines 92-105). -/
def getSnapshotFiles (rd : RequestData) : SnapshotFiles :=
  let uniqueReqId := md5 (stringifyRequestData rd)
  let snapshotBase :=
    SNAPSHOT_DIR ++ "/" ++ rd.hostOf
      ++ (if jsSliceLast rd.pathnameOf = "/" then rd.pathnameOf ++ "index" else rd.pathnameOf)
      ++ "." ++ rd.methodOf ++ "." ++ uniqueReqId
  { directory := jsDirname snapshotBase
  , info := snapshotBase ++ ".json"
  , data := snapshotBase ++ ".data" }

/-! Snapshot metadata.  The HTTP adapter stores the axios response
object minus `data` and `request` (`const { data, ...info } = ...;
delete info.request`); of its fields only `headers` is ever read back
(`info.headers["content-type"]` in `serveHttpData`), so the model keeps
the `headers` field and elides `status`, `statusText` and `config`,
which the server never reads.  The socket.io adapter stores the
`requestData` object itself as the metadata (`info: requestData`). -/

inductive MetaVal where
  | resp (headers : HeaderMap)
  | reqMeta (rd : RequestData)
  deriving DecidableEq, Repr

/-- Model of `JSON.stringify(info)` for the two metadata shapes the
server writes. -/
def metaChars : MetaVal → List Char
  | .resp headers => "\x7b\"headers\":\x7b".data ++ (printPairsList headers ++ "\x7d\x7d".data)
  | .reqMeta rd => reqChars rd

def stringifyMeta (m : MetaVal) : String :=
  String.mk (metaChars m)

/-- The `info.headers` property: the stored response headers, or the
stored request's headers for an HTTP `requestData` metadata; `none`
models `undefined` (a `ws` `requestData` has no `headers` field). -/
def metaHeaders : MetaVal → Option HeaderMap
  | .resp headers => some headers
  | .reqMeta (.http _ _ _ _ headers _) => some headers
  | .reqMeta (.ws _ _ _ _ _) => none

/-- The `{ data, info, requestData }` snapshot value passed between
`fetchFromServer`, `saveSnapshot` and `fetchFromSnapshot`. -/
structure SnapshotData where
  info : MetaVal
  data : List Nat
  requestData : RequestData
  deriving DecidableEq, Repr

/-! Filesystem model: an association list from paths to file contents,
where a write shadows earlier entries.  `writeFileSync` with a string
writes text, with a `Buffer` writes bytes. -/

inductive FileVal where
  | txt (s : String)
  | bin (b : List Nat)
  deriving DecidableEq, Repr

abbrev FS := List (String × FileVal)

def FS.read (fs : FS) (p : String) : Option FileVal :=
  (fs.find? (fun e => e.1 == p)).map (fun e => e.2)

def FS.write (fs : FS) (p : String) (v : FileVal) : FS :=
  (p, v) :: fs

/-- Bytes of a file as `readFileSync` returns them; for a text file this
models the UTF-8 bytes of its ASCII content. -/
def FileVal.bytes : FileVal → List Nat
  | .bin b => b
  | .txt s => s.data.map Char.toNat

/-- Model of `Buffer.from(s, "binary")`: the latin1 encoding keeps only
the low byte of each code unit. -/
def latin1Bytes (s : String) : List Nat :=
  s.data.map (fun c => c.toNat % 256)

/-- External collaborators, as an explicit environment: the axios HTTP
client (`none` is a transport failure / thrown error), the socket.io
proxy client (`none` means no reply ever arrives; `some s` is the reply
with serialized form `s`), and the filesystem's willingness to perform
`mkdirSync`/`writeFileSync` on a given path (`false` makes the call
throw). -/
structure Env where
  httpHeaders : RequestData → HeaderMap
  httpData : RequestData → List Nat
  httpOk : RequestData → Bool
  wsReply : RequestData → Option String
  mkdirOk : String → Bool
  writeOk : String → Bool

/-- Embedding of `saveSnapshot` (lines 127-136).  Returns whether the
call completed (`false` models a thrown filesystem error) together with
the resulting filesystem, including any write that happened before the
throw.  `mkdirSync` failure aborts before any write; the metadata is
written before the payload. -/
def saveSnapshot (env : Env) (fs : FS) (sd : SnapshotData) : Bool × FS :=
  let snapshotFiles := getSnapshotFiles sd.requestData
  if env.mkdirOk snapshotFiles.directory then
    if env.writeOk snapshotFiles.info then
      let fs1 := fs.write snapshotFiles.info (.txt (stringifyMeta sd.info))
      if env.writeOk snapshotFiles.data then
        (true, fs1.write snapshotFiles.data (.bin sd.data))
      else (false, fs1)
    else (false, fs)
  else (false, fs)

/-- Model of `JSON.parse` on a metadata artifact, defined below with
its helper readers: it accepts exactly the texts `stringifyMeta`
produces (the real parser accepts more JSON texts, but every text this
server writes has one of these two shapes, and the corrupt texts the
claims are about fail in both).  Declared after its readers. -/
def dropLit : List Char → List Char → Option (List Char)
  | cs, [] => some cs
  | [], _ :: _ => none
  | c :: cs, d :: ds => if c = d then dropLit cs ds else none

/-- Read a quoted string's body up to the closing quote; escape
sequences are not modelled (a backslash fails the parse). -/
def readQuoted : List Char → Option (List Char × List Char)
  | [] => none
  | c :: cs =>
    if c = '"' then some ([], cs)
    else if c = '\\' then none
    else match readQuoted cs with
      | some (v, rest) => some (c :: v, rest)
      | none => none

/-- Read the pairs of a string-valued object after its opening brace,
consuming the closing brace.  Fuel bounds the number of pairs. -/
def readPairsGo : Nat → List Char → Option (HeaderMap × List Char)
  | _, '\x7d' :: rest => some ([], rest)
  | 0, _ => none
  | fuel + 1, '"' :: cs =>
    (readQuoted cs).bind fun kp =>
      match kp.2 with
      | ':' :: '"' :: cs2 =>
        (readQuoted cs2).bind fun vp =>
          match vp.2 with
          | ',' :: cs4 =>
            (readPairsGo fuel cs4).map fun pr =>
              ((String.mk kp.1, String.mk vp.1) :: pr.1, pr.2)
          | '\x7d' :: cs4 => some ([(String.mk kp.1, String.mk vp.1)], cs4)
          | _ => none
      | _ => none
  | _ + 1, _ => none

def readPairs (cs : List Char) : Option (HeaderMap × List Char) :=
  readPairsGo cs.length cs

/-- Model of `JSON.parse` applied to a metadata artifact (see
`stringifyMeta`).  Any text not of the two produced shapes fails
(`none` models the thrown `SyntaxError`). -/
def parseMeta (s : String) : Option MetaVal :=
  match dropLit s.data ("\x7b\"headers\":\x7b".data) with
  | some rest =>
    (readPairs rest).bind fun pr =>
      if pr.2 = ['\x7d'] then some (.resp pr.1) else none
  | none =>
    (dropLit s.data ("\x7b\"host\":\"".data)).bind fun r1 =>
    (readQuoted r1).bind fun hostP =>
    (dropLit hostP.2 (",\"href\":\"".data)).bind fun r3 =>
    (readQuoted r3).bind fun hrefP =>
    (dropLit hrefP.2 (",\"data\":\"".data)).bind fun r5 =>
    (readQuoted r5).bind fun dataP =>
    (dropLit dataP.2 (",\"pathname\":\"".data)).bind fun r7 =>
    (readQuoted r7).bind fun pathP =>
    (dropLit pathP.2 (",\"method\":\"".data)).bind fun r9 =>
    (readQuoted r9).bind fun methodP =>
    if methodP.2 = ['\x7d'] then
      some (.reqMeta (.ws (String.mk hostP.1) (String.mk hrefP.1) (String.mk dataP.1)
        (String.mk pathP.1) (String.mk methodP.1)))
    else none

/-- Embedding of `fetchFromSnapshot` (lines 107-125): read the metadata
artifact, `JSON.parse` it, read the payload artifact; any failure is
caught (`try/catch`) and yields `none` (a miss).  A binary metadata file
is treated as unparseable. -/
def fetchFromSnapshot (fs : FS) (rd : RequestData) : Option SnapshotData :=
  let snapshotFiles := getSnapshotFiles rd
  match fs.read snapshotFiles.info with
  | some (.txt s) =>
    match parseMeta s with
    | some info =>
      match fs.read snapshotFiles.data with
      | some v => some { info := info, data := v.bytes, requestData := rd }
      | none => none
    | none => none
  | some (.bin _) => none
  | none => none

/-- Embedding of `fetchFromServer` (lines 138-159).  The single
`try/catch` wraps both the axios call and `saveSnapshot`, so a thrown
store write also makes the function yield `none`.  The third component
counts how many times the `saveSnapshot` body ran. -/
def fetchFromServer (env : Env) (fs : FS) (rd : RequestData) :
    Option SnapshotData × FS × Nat :=
  if env.httpOk rd then
    let sd : SnapshotData :=
      { info := .resp (env.httpHeaders rd), data := env.httpData rd, requestData := rd }
    match saveSnapshot env fs sd with
    | (true, fs1) => (some sd, fs1, 1)
    | (false, fs1) => (none, fs1, 1)
  else (none, fs, 0)

/-- Result of one orchestrated call: the value handed to the caller,
the filesystem afterwards, how many times the protocol's upstream
adapter ran, and how many times a snapshot save ran. -/
structure RRRes where
  result : Option SnapshotData
  fs : FS
  adapterCalls : Nat
  saveCalls : Nat
  deriving DecidableEq, Repr

/-- The shared lookup-else-fetch sequencing of `recordReplayData`
(lines 191-201) after the request has been normalized: a snapshot hit
is returned as-is, a miss falls through to `fetchFromServer`.  (The
source returns the adapter's un-awaited promise, which the caller's
`await` flattens, so the adapter's resolved value is what the caller
sees.) -/
def recordReplayCore (env : Env) (fs : FS) (rd : RequestData) : RRRes :=
  match fetchFromSnapshot fs rd with
  | some snapshotData => ⟨some snapshotData, fs, 0, 0⟩
  | none =>
    match fetchFromServer env fs rd with
    | (r, fs1, saves) => ⟨r, fs1, 1, saves⟩

/-- The header allow-list of `recordReplayData` (lines 164-176),
exactly as written in the source: note the lower-case `user-agent`. -/
def allowKeys : List String := ["Content-Type", "user-agent", "Authorization"]

/-- Embedding of the header-narrowing `reduce` in `recordReplayData`:
a falsy (absent or empty) value is skipped, a present one is copied
under the allow-list key, in allow-list order. -/
def normalizeHeaders (fullHeaders : HeaderMap) : HeaderMap :=
  allowKeys.foldl
    (fun o k =>
      match jsGet fullHeaders k with
      | some v => if v = "" then o else o ++ [(k, v)]
      | none => o)
    []

/-- An inbound HTTP request as express delivers it to the server. -/
structure InboundReq where
  url : String
  method : String
  headers : HeaderMap
  body : String
  deriving DecidableEq, Repr

/-- Embedding of `recordReplayData` (lines 161-202): narrow the
headers, `new URL(decodeURIComponent(url))` (a parse failure is the
thrown `TypeError`, which the caller's `try` catches — no adapter
runs), build `requestData`, then look up / fetch. -/
def recordReplayData (env : Env) (fs : FS) (req : InboundReq) : RRRes :=
  let headers := normalizeHeaders req.headers
  match decodeURIComponent req.url with
  | none => ⟨none, fs, 0, 0⟩
  | some dec =>
    match parseURL dec with
    | none => ⟨none, fs, 0, 0⟩
    | some u =>
      recordReplayCore env fs (.http u.host u.pathname u.href req.method headers req.body)

/-- Embedding of `fetchFromSocketIOServer` (lines 204-225): open a
proxy connection, send the message, and in the reply callback build the
snapshot (`data` is the latin1 buffer of the serialized reply, `info`
is the `requestData` itself) and save it.  If no reply ever arrives, or
`saveSnapshot` throws inside the callback, the promise never resolves;
both are modelled as yielding `none`. -/
def fetchFromSocketIoServer (env : Env) (fs : FS) (rd : RequestData) :
    Option SnapshotData × FS × Nat :=
  match env.wsReply rd with
  | some reply =>
    let sd : SnapshotData :=
      { info := .reqMeta rd, data := latin1Bytes reply, requestData := rd }
    match saveSnapshot env fs sd with
    | (true, fs1) => (some sd, fs1, 1)
    | (false, fs1) => (none, fs1, 1)
  | none => (none, fs, 0)

/-- Embedding of `recordReplaySocketIO` (lines 227-239): identical
sequencing to `recordReplayData`, with the socket.io adapter. -/
def recordReplaySocketIo (env : Env) (fs : FS) (rd : RequestData) : RRRes :=
  match fetchFromSnapshot fs rd with
  | some snapshotData => ⟨some snapshotData, fs, 0, 0⟩
  | none =>
    match fetchFromSocketIoServer env fs rd with
    | (r, fs1, saves) => ⟨r, fs1, 1, saves⟩

/-- The listening port (`process.env.PORT || 9001`, at its default). -/
def portStr : String := "9001"

/-- Response surface of one HTTP exchange: the body bytes, the
Content-Type header copied from the stored/fetched metadata, and the
explicit status code, which the server never sets. -/
structure HttpResp where
  body : List Nat
  contentType : Option String
  status : Option Nat
  deriving DecidableEq, Repr

def emptyResp : HttpResp := ⟨[], none, none⟩

/-- The pre-`try` URL rewriting of `serveHttpData` (lines 241-259),
which may itself throw (`Except.error`): reading `.indexOf` of an
absent `host` header, or `new URL` on a referer that contains no
parseable URL. -/
def rewriteUrl (url : String) (host referer : Option String) : Except Unit String :=
  if containsSub url "http" then .ok url
  else
    match host with
    | none => .error ()
    | some h =>
      let url1 :=
        if containsSub h (".localhost:" ++ portStr) then
          "https://" ++ replaceFirst h (".localhost:" ++ portStr) "" ++ "/" ++ url
        else url
      if containsSub url1 "http" then .ok url1
      else
        match referer with
        | some r =>
          if r = "" then .ok url1
          else
            let r1 :=
              match indexOfSub r "/http" with
              | some i => jsSubstringFrom r (i + 1)
              | none => r
            match parseURL r1 with
            | none => .error ()
            | some u => .ok (u.origin ++ "/" ++ url1)
        | none => .ok url1

/-- Embedding of `serveHttpData` (lines 241-271).  After the rewrite,
everything runs inside the `try`: a missing result (or a metadata value
without a `headers` property) ends in the `catch` with `res.send(null)`
— an empty body, no Content-Type, and no explicit status. -/
def serveHttpData (env : Env) (fs : FS) (req : InboundReq) :
    Except Unit (HttpResp × FS) :=
  match rewriteUrl req.url (jsGet req.headers "host") (jsGet req.headers "referer") with
  | .error e => .error e
  | .ok u =>
    let r := recordReplayData env fs { req with url := u }
    match r.result with
    | none => .ok (emptyResp, r.fs)
    | some sd =>
      match metaHeaders sd.info with
      | none => .ok (emptyResp, r.fs)
      | some hs => .ok (⟨sd.data, jsGet hs "content-type", none⟩, r.fs)

/-- The path part of a request URL, as express routes on it. -/
def urlPath (u : String) : String :=
  String.mk (u.data.takeWhile (fun c => ¬ c = '?'))

/-- The express routing in `start` (lines 29-40): the root route
extracts the part after the first `/?url=` when present; every other
path is stripped of its leading slash. -/
def routeUrl (u : String) : String :=
  if urlPath u = "/" then
    if containsSub u "/?url=" then ((jsSplit u "/?url=").get? 1).getD "" else u
  else jsSubstringFrom u 1

/-- One full inbound HTTP call: express routing followed by
`serveHttpData`. -/
def handleHttp (env : Env) (fs : FS) (req : InboundReq) :
    Except Unit (HttpResp × FS) :=
  serveHttpData env fs { req with url := routeUrl req.url }

/-- The target URL an inbound HTTP call resolves to: routing, the
rewrites, `decodeURIComponent`, `new URL` — the composition actually
run by `handleHttp` before any store access.  `.ok none` means no
canonical request is produced (and the call is served nothing);
`.error` means the rewrite step itself threw. -/
def resolveTarget (req : InboundReq) : Except Unit (Option URLRec) :=
  match rewriteUrl (routeUrl req.url) (jsGet req.headers "host") (jsGet req.headers "referer") with
  | .error e => .error e
  | .ok u =>
    .ok (match decodeURIComponent u with
         | none => none
         | some dec => parseURL dec)

/-- Embedding of the socket.io connection handler in `start` (lines
42-68): a falsy `url` connection parameter causes `socket.disconnect()`
but the handler falls through (there is no `return`), so
`new URL(decodeURIComponent(url))` then throws — before the `message`
listener is installed. -/
structure ConnOutcome where
  disconnected : Bool
  messageHandlerInstalled : Bool
  threw : Bool
  deriving DecidableEq, Repr

def connectionHandler (urlParam : Option String) : ConnOutcome :=
  let disc := urlParam = none ∨ urlParam = some ""
  let urlStr :=
    match urlParam with
    | some s => s
    | none => "undefined"
  match decodeURIComponent urlStr with
  | none => ⟨disc, false, true⟩
  | some dec =>
    match parseURL dec with
    | none => ⟨disc, false, true⟩
    | some _ => ⟨disc, true, false⟩

/-- The shared final step of target resolution: decode the chosen
string and parse it as an absolute URL; failure of either step means no
canonical request is produced. -/
def chainFinish (s : String) : Except Unit (Option URLRec) :=
  .ok (match decodeURIComponent s with
       | none => none
       | some dec => parseURL dec)

/-- The spec's resolution chain (stated from the spec's words, amended
where the code forced it), as an explicit first-match-wins rule list:
(1) on the root path only, the part after the first `/?url=` becomes
the target string; otherwise the path loses its leading slash; (2) a
target string containing `http` anywhere is used directly; (3) else a
`\x7ben\x7d.localhost:\x7bport\x7d` host is rewritten to
`https://\x7ben\x7d/\x7bpath\x7d`; (4) else the target is resolved
against the URL embedded in the Referer header, which throws when that
embedded URL is unparseable (as does a missing Host header in steps
3-4); a target that survives no rule is parsed as-is and produces no
canonical request. -/
def resolveChainSpec (req : InboundReq) : Except Unit (Option URLRec) :=
  let raw :=
    if urlPath req.url = "/" then
      if containsSub req.url "/?url=" then ((jsSplit req.url "/?url=").get? 1).getD ""
      else req.url
    else jsSubstringFrom req.url 1
  if containsSub raw "http" then chainFinish raw
  else
    match jsGet req.headers "host" with
    | none => .error ()
    | some h =>
      if containsSub h (".localhost:" ++ portStr) then
        chainFinish ("https://" ++ replaceFirst h (".localhost:" ++ portStr) "" ++ "/" ++ raw)
      else
        match jsGet req.headers "referer" with
        | some r =>
          if r = "" then chainFinish raw
          else
            match parseURL (match indexOfSub r "/http" with
                            | some i => jsSubstringFrom r (i + 1)
                            | none => r) with
            | none => .error ()
            | some u => chainFinish (u.origin ++ "/" ++ raw)
        | none => chainFinish raw

/-! Cleanliness: the serializer above embeds strings without escaping,
so round-trip lemmas ask that the embedded strings contain no quote and
no backslash. -/

abbrev cleanChars (cs : List Char) : Prop := '"' ∉ cs ∧ '\\' ∉ cs

abbrev cleanStr (s : String) : Prop := cleanChars s.data

abbrev cleanPairs (ps : HeaderMap) : Prop := ∀ p ∈ ps, cleanStr p.1 ∧ cleanStr p.2

/-- The metadata values whose serialization round-trips: a stored HTTP
response with clean headers, or a stored socket.io `requestData` with
clean fields.  (An HTTP `requestData` is never stored as metadata.) -/
abbrev cleanMeta : MetaVal → Prop
  | .resp h => cleanPairs h
  | .reqMeta (.ws host href data pathname method) =>
    cleanStr host ∧ cleanStr href ∧ cleanStr data ∧ cleanStr pathname ∧ cleanStr method
  | .reqMeta (.http _ _ _ _ _ _) => False

/-! Concrete sample inputs used by the witness and counterexample
theorems below. -/

/-- A sample environment: the upstream HTTP server answers every
request with body bytes `[104, 105]` and a `content-type` header, the
socket.io upstream replies `"ok"`, and the filesystem accepts every
write. -/
def sampleEnv : Env :=
  { httpHeaders := fun _ => [("content-type", "text/html")]
  , httpData := fun _ => [104, 105]
  , httpOk := fun _ => true
  , wsReply := fun _ => some "\"ok\""
  , mkdirOk := fun _ => true
  , writeOk := fun _ => true }

/-- A sample environment whose filesystem rejects every write. -/
def failWriteEnv : Env :=
  { sampleEnv with writeOk := fun _ => false }

/-- A sample environment whose upstream HTTP transport always fails. -/
def failHttpEnv : Env :=
  { sampleEnv with httpOk := fun _ => false }

/-- A sample canonical HTTP request. -/
def sampleRd : RequestData :=
  .http "example.com" "/a" "https://example.com/a" "GET" [] "null"

/-- A sample canonical socket.io request. -/
def sampleWsRd : RequestData :=
  .ws "h.example" "wss://h.example/" "ping" "/socket.io/" "websocket"

theorem mk_data (s : String) : String.mk s.data = s := rfl

theorem data_mk (l : List Char) : (String.mk l).data = l := rfl

theorem FS.read_write_self (fs : FS) (p : String) (v : FileVal) :
    (fs.write p v).read p = some v := by
  simp [FS.read, FS.write, List.find?]

theorem FS.read_write_other (fs : FS) (p q : String) (v : FileVal) (h : p ≠ q) :
    (fs.write p v).read q = fs.read q := by
  have hb : (p == q) = false := by simp [h]
  simp [FS.read, FS.write, List.find?, hb]

theorem dropLit_append (l r : List Char) : dropLit (l ++ r) l = some r := by
  induction l with
  | nil => simp [dropLit]
  | cons c cs ih => simp [dropLit, ih]

theorem readQuoted_append (v r : List Char) (hq : '"' ∉ v) (hb : '\\' ∉ v) :
    readQuoted (v ++ '"' :: r) = some (v, r) := by
  induction v with
  | nil => simp [readQuoted]
  | cons c cs ih =>
    simp only [List.mem_cons, not_or] at hq hb
    have h1 : ¬c = '"' := fun e => hq.1 e.symm
    have h2 : ¬c = '\\' := fun e => hb.1 e.symm
    simp [readQuoted, h1, h2, ih hq.2 hb.2]

theorem readPairsGo_print (ps : HeaderMap) (r : List Char) (hc : cleanPairs ps) :
    ∀ fuel, ps.length ≤ fuel →
      readPairsGo fuel (printPairsList ps ++ '\x7d' :: r) = some (ps, r) := by
  induction ps with
  | nil => intro fuel _; simp [printPairsList, readPairsGo]
  | cons p ps ih =>
    intro fuel hfuel
    obtain ⟨k, v⟩ := p
    have hk := (hc (k, v) (List.mem_cons_self _ _)).1
    have hv := (hc (k, v) (List.mem_cons_self _ _)).2
    obtain ⟨fuel, rfl⟩ : ∃ f, fuel = f + 1 := by
      cases fuel with
      | zero => simp at hfuel
      | succ f => exact ⟨f, rfl⟩
    cases ps with
    | nil =>
      simp only [printPairsList, quoteChars, List.cons_append, List.append_assoc,
        List.singleton_append, List.nil_append]
      simp only [readPairsGo]
      rw [readQuoted_append _ _ hk.1 hk.2]
      simp only [Option.some_bind]
      rw [readQuoted_append _ _ hv.1 hv.2]
      simp [mk_data]
    | cons q ps' =>
      simp only [printPairsList, quoteChars, List.cons_append, List.append_assoc,
        List.singleton_append, List.nil_append]
      simp only [readPairsGo]
      rw [readQuoted_append _ _ hk.1 hk.2]
      simp only [Option.some_bind]
      rw [readQuoted_append _ _ hv.1 hv.2]
      have hrec := ih (fun x hx => hc x (List.mem_cons_of_mem _ hx)) fuel
        (by simpa using Nat.le_of_succ_le_succ hfuel)
      simp [mk_data, hrec]

theorem printPairsList_length (ps : HeaderMap) :
    ps.length ≤ (printPairsList ps).length := by
  induction ps with
  | nil => simp [printPairsList]
  | cons p ps ih =>
    obtain ⟨k, v⟩ := p
    cases ps with
    | nil => simp [printPairsList, quoteChars]
    | cons q ps' =>
      simp only [printPairsList, quoteChars] at *
      simp only [List.length_cons, List.length_append] at *
      omega

theorem readPairs_print (ps : HeaderMap) (r : List Char) (hc : cleanPairs ps) :
    readPairs (printPairsList ps ++ '\x7d' :: r) = some (ps, r) := by
  apply readPairsGo_print _ _ hc
  have := printPairsList_length ps
  simp only [List.length_append, List.length_cons]
  omega

/-- Round-trip of the metadata serialization for a stored HTTP
response: `JSON.parse(JSON.stringify(info))` recovers `info`. -/
theorem parseMeta_stringify_resp (h : HeaderMap) (hc : cleanPairs h) :
    parseMeta (stringifyMeta (.resp h)) = some (.resp h) := by
  simp [parseMeta, stringifyMeta, metaChars, data_mk, dropLit,
    readPairs_print h ['\x7d'] hc]

/-- Round-trip of the metadata serialization for a stored socket.io
`requestData`. -/
theorem parseMeta_stringify_ws (host href data pathname method : String)
    (h1 : cleanStr host) (h2 : cleanStr href) (h3 : cleanStr data)
    (h4 : cleanStr pathname) (h5 : cleanStr method) :
    parseMeta (stringifyMeta (.reqMeta (.ws host href data pathname method)))
      = some (.reqMeta (.ws host href data pathname method)) := by
  simp [parseMeta, stringifyMeta, metaChars, reqChars, data_mk, dropLit,
    readQuoted_append _ _ h1.1 h1.2, readQuoted_append _ _ h2.1 h2.2,
    readQuoted_append _ _ h3.1 h3.2, readQuoted_append _ _ h4.1 h4.2,
    readQuoted_append _ _ h5.1 h5.2, mk_data]

/-- Combined round-trip: every clean metadata value survives
stringify-then-parse. -/
theorem parseMeta_stringify (m : MetaVal) (hc : cleanMeta m) :
    parseMeta (stringifyMeta m) = some m := by
  match m with
  | .resp h => exact parseMeta_stringify_resp h hc
  | .reqMeta (.ws host href data pathname method) =>
    exact parseMeta_stringify_ws host href data pathname method
      hc.1 hc.2.1 hc.2.2.1 hc.2.2.2.1 hc.2.2.2.2
  | .reqMeta (.http _ _ _ _ _ _) => exact absurd hc (by simp [cleanMeta])

theorem string_append_ne_of_suffix_ne (a b c : String)
    (h : b.data ≠ c.data) : a ++ b ≠ a ++ c := by
  intro he
  apply h
  have := congrArg String.data he
  simpa [String.data_append] using this

/-- The two artifacts of a snapshot live at distinct paths. -/
theorem snapshotFiles_info_ne_data (rd : RequestData) :
    (getSnapshotFiles rd).info ≠ (getSnapshotFiles rd).data := by
  apply string_append_ne_of_suffix_ne
  decide

/-- What the store looks like after a successful save: the metadata
text under the `.json` path, the payload bytes under the `.data`
path. -/
theorem saveSnapshot_success (env : Env) (fs : FS) (sd : SnapshotData)
    (hm : env.mkdirOk (getSnapshotFiles sd.requestData).directory = true)
    (hi : env.writeOk (getSnapshotFiles sd.requestData).info = true)
    (hd : env.writeOk (getSnapshotFiles sd.requestData).data = true) :
    saveSnapshot env fs sd
      = (true, ((fs.write (getSnapshotFiles sd.requestData).info
          (.txt (stringifyMeta sd.info))).write
            (getSnapshotFiles sd.requestData).data (.bin sd.data))) := by
  simp [saveSnapshot, hm, hi, hd]

/-- Reading back the artifacts written by a successful save. -/
theorem read_after_save (env : Env) (fs : FS) (sd : SnapshotData)
    (hm : env.mkdirOk (getSnapshotFiles sd.requestData).directory = true)
    (hi : env.writeOk (getSnapshotFiles sd.requestData).info = true)
    (hd : env.writeOk (getSnapshotFiles sd.requestData).data = true) :
    (saveSnapshot env fs sd).2.read (getSnapshotFiles sd.requestData).info
        = some (.txt (stringifyMeta sd.info))
      ∧ (saveSnapshot env fs sd).2.read (getSnapshotFiles sd.requestData).data
        = some (.bin sd.data) := by
  rw [saveSnapshot_success env fs sd hm hi hd]
  constructor
  · rw [FS.read_write_other _ _ _ _ (Ne.symm (snapshotFiles_info_ne_data sd.requestData))]
    exact FS.read_write_self _ _ _
  · exact FS.read_write_self _ _ _

/-- A store that holds a parseable metadata artifact and a payload
artifact for a request replays it: no adapter call, no save, store
untouched. -/
theorem fetchFromSnapshot_hit (fs : FS) (rd : RequestData) (s : String)
    (m : MetaVal) (v : FileVal)
    (hi : fs.read (getSnapshotFiles rd).info = some (.txt s))
    (hp : parseMeta s = some m)
    (hd : fs.read (getSnapshotFiles rd).data = some v) :
    fetchFromSnapshot fs rd = some ⟨m, v.bytes, rd⟩ := by
  simp [fetchFromSnapshot, hi, hp, hd]

/-- C1: for every two canonical requests with identical host, pathname,
href, method and body, whose inbound header maps agree on the three
allow-listed access paths (however the full maps are ordered), the
fingerprint derived in `getSnapshotFiles` from the serialized request is
the same string. -/
theorem fingerprint_deterministic (full1 full2 : HeaderMap)
    (host pathname href method body : String)
    (hC : jsGet full1 "Content-Type" = jsGet full2 "Content-Type")
    (hU : jsGet full1 "user-agent" = jsGet full2 "user-agent")
    (hA : jsGet full1 "Authorization" = jsGet full2 "Authorization") :
    fingerprint (.http host pathname href method (normalizeHeaders full1) body)
      = fingerprint (.http host pathname href method (normalizeHeaders full2) body) := by
  have hn : normalizeHeaders full1 = normalizeHeaders full2 := by
    simp only [normalizeHeaders, allowKeys, List.foldl_cons, List.foldl_nil, hC, hU, hA]
  rw [hn]

/-- Witness for C1: two inbound header maps with different insertion
order (and different ignored headers) produce the same fingerprint. -/
theorem fingerprint_deterministic_witness :
    fingerprint (.http "example.com" "/a" "https://example.com/a" "GET"
        (normalizeHeaders [("Authorization", "y"), ("user-agent", "ua"), ("Cookie", "c")]) "null")
      = fingerprint (.http "example.com" "/a" "https://example.com/a" "GET"
        (normalizeHeaders [("X-Trace", "z"), ("user-agent", "ua"), ("Authorization", "y")]) "null") :=
  fingerprint_deterministic _ _ _ _ _ _ _ rfl rfl rfl

/-- Membership in the allow-list fold of `recordReplayData`: a pair
survives exactly when its key is one of the folded keys, the inbound
map holds it, and its value is truthy. -/
theorem mem_allowFold (full : HeaderMap) (keys : List String) (acc : HeaderMap)
    (k v : String) :
    ((k, v) ∈ keys.foldl
        (fun o k' =>
          match jsGet full k' with
          | some w => if w = "" then o else o ++ [(k', w)]
          | none => o) acc)
      ↔ ((k, v) ∈ acc ∨ (k ∈ keys ∧ jsGet full k = some v ∧ v ≠ "")) := by
  induction keys generalizing acc with
  | nil => simp
  | cons a keys ih =>
    simp only [List.foldl_cons, ih, List.mem_cons]
    cases hga : jsGet full a with
    | none =>
      simp only [hga]
      constructor
      · rintro (h | h)
        · exact Or.inl h
        · exact Or.inr ⟨Or.inr h.1, h.2⟩
      · rintro (h | ⟨rfl | hk', hj, hv⟩)
        · exact Or.inl h
        · rw [hga] at hj; cases hj
        · exact Or.inr ⟨hk', hj, hv⟩
    | some w =>
      by_cases hw : w = ""
      · subst hw
        simp only [hga, if_pos rfl]
        constructor
        · rintro (h | h)
          · exact Or.inl h
          · exact Or.inr ⟨Or.inr h.1, h.2⟩
        · rintro (h | ⟨rfl | hk', hj, hv⟩)
          · exact Or.inl h
          · rw [hga] at hj
            injection hj with hj'
            exact absurd hj'.symm hv
          · exact Or.inr ⟨hk', hj, hv⟩
      · simp only [hga, if_neg hw]
        constructor
        · rintro (h | h)
          · rcases List.mem_append.mp h with h' | h'
            · exact Or.inl h'
            · simp only [List.mem_singleton, Prod.mk.injEq] at h'
              obtain ⟨rfl, rfl⟩ := h'
              exact Or.inr ⟨Or.inl rfl, hga, hw⟩
          · exact Or.inr ⟨Or.inr h.1, h.2⟩
        · rintro (h | ⟨rfl | hk', hj, hv⟩)
          · exact Or.inl (List.mem_append.mpr (Or.inl h))
          · rw [hga] at hj
            injection hj with hj'
            subst hj'
            exact Or.inl (List.mem_append.mpr (Or.inr (by simp)))
          · exact Or.inr ⟨hk', hj, hv⟩

/-- Counterexample for C4: the claim's allow-list names `User-Agent`
(and calls every present allow-listed header copied), but the code
looks up the exact keys `Content-Type`, `user-agent`, `Authorization`
and drops falsy values, so a `User-Agent` header and an empty
`Content-Type` header are both dropped. -/
theorem header_allowlist_counterexample :
    normalizeHeaders [("User-Agent", "ua"), ("Content-Type", "")] = []
      ∧ ("User-Agent", "ua") ∉ normalizeHeaders [("User-Agent", "ua"), ("Content-Type", "")] := by
  decide

/-- C4 (amended): the normalized headers contain exactly those inbound
entries whose keys are, case-sensitively, `Content-Type`, `user-agent`
or `Authorization` and whose values are non-empty; in particular
`\x7bCookie: "x", Authorization: "y", X-Trace: "z"\x7d` normalizes to
exactly `Authorization: "y"`. -/
theorem header_allowlist (full : HeaderMap) (k v : String) :
    ((k, v) ∈ normalizeHeaders full
      ↔ ((k = "Content-Type" ∨ k = "user-agent" ∨ k = "Authorization")
          ∧ jsGet full k = some v ∧ v ≠ ""))
    ∧ normalizeHeaders [("Cookie", "x"), ("Authorization", "y"), ("X-Trace", "z")]
        = [("Authorization", "y")] := by
  constructor
  · rw [normalizeHeaders, mem_allowFold]
    simp [allowKeys]
  · decide

/-- Witness for C4: the claim's own example, read off the amended
theorem. -/
theorem header_allowlist_witness :
    ("Authorization", "y")
      ∈ normalizeHeaders [("Cookie", "x"), ("Authorization", "y"), ("X-Trace", "z")] := by
  rw [(header_allowlist [] "" "").2]
  decide

theorem jsSliceLast_eq_slash_iff (p : String) :
    jsSliceLast p = "/" ↔ p.data.getLast? = some '/' := by
  unfold jsSliceLast
  cases h : p.data.getLast? with
  | none => simp only [h]; decide
  | some c =>
    simp only [h, String.ext_iff, data_mk, Option.some.injEq]
    show [c] = ['/'] ↔ c = '/'
    simp

/-- C9: the snapshot artifacts of a request live at the deterministic
path `\x7broot\x7d/\x7bhost\x7d\x7bpathname\x7d.\x7bmethod\x7d.\x7bfingerprint\x7d`,
with a trailing-slash pathname extended by `index`, as the sibling pair
`.json` (metadata) and `.data` (payload). -/
theorem snapshot_path_layout (rd : RequestData) :
    (getSnapshotFiles rd).info
        = SNAPSHOT_DIR ++ "/" ++ rd.hostOf
          ++ (if rd.pathnameOf.data.getLast? = some '/'
              then rd.pathnameOf ++ "index" else rd.pathnameOf)
          ++ "." ++ rd.methodOf ++ "." ++ fingerprint rd ++ ".json"
      ∧ (getSnapshotFiles rd).data
        = SNAPSHOT_DIR ++ "/" ++ rd.hostOf
          ++ (if rd.pathnameOf.data.getLast? = some '/'
              then rd.pathnameOf ++ "index" else rd.pathnameOf)
          ++ "." ++ rd.methodOf ++ "." ++ fingerprint rd ++ ".data" := by
  have hif : (if jsSliceLast rd.pathnameOf = "/" then rd.pathnameOf ++ "index" else rd.pathnameOf)
      = (if rd.pathnameOf.data.getLast? = some '/' then rd.pathnameOf ++ "index" else rd.pathnameOf) :=
    if_congr (jsSliceLast_eq_slash_iff _) rfl rfl
  constructor
  · show SNAPSHOT_DIR ++ "/" ++ rd.hostOf
        ++ (if jsSliceLast rd.pathnameOf = "/" then rd.pathnameOf ++ "index" else rd.pathnameOf)
        ++ "." ++ rd.methodOf ++ "." ++ md5 (stringifyRequestData rd) ++ ".json" = _
    rw [hif]; rfl
  · show SNAPSHOT_DIR ++ "/" ++ rd.hostOf
        ++ (if jsSliceLast rd.pathnameOf = "/" then rd.pathnameOf ++ "index" else rd.pathnameOf)
        ++ "." ++ rd.methodOf ++ "." ++ md5 (stringifyRequestData rd) ++ ".data" = _
    rw [hif]; rfl

/-- C10: a socket.io connection whose `url` connection parameter is
missing or blank is disconnected at once, and its `message` listener is
never installed (the handler throws on `new URL` before reaching it),
so no message exchange is processed on that connection. -/
theorem ws_reject_blank_url (urlParam : Option String)
    (h : urlParam = none ∨ urlParam = some "") :
    (connectionHandler urlParam).disconnected = true
      ∧ (connectionHandler urlParam).messageHandlerInstalled = false := by
  rcases h with rfl | rfl
  · exact ⟨rfl, rfl⟩
  · exact ⟨rfl, rfl⟩

/-- Witness for C10 at a concrete missing parameter. -/
theorem ws_reject_blank_url_witness :
    (connectionHandler none).disconnected = true
      ∧ (connectionHandler none).messageHandlerInstalled = false :=
  ws_reject_blank_url none (Or.inl rfl)

/-- C5: a missing metadata artifact, an unparseable metadata artifact,
or a missing payload artifact all make the snapshot lookup report a
miss (`none`) rather than an error, and on a miss both orchestrators
proceed to exactly one fresh upstream adapter call. -/
theorem snapshot_fail_open :
    (∀ (fs : FS) (rd : RequestData),
        FS.read fs (getSnapshotFiles rd).info = none → fetchFromSnapshot fs rd = none)
    ∧ (∀ (fs : FS) (rd : RequestData) (s : String),
        FS.read fs (getSnapshotFiles rd).info = some (.txt s) → parseMeta s = none →
          fetchFromSnapshot fs rd = none)
    ∧ (∀ (fs : FS) (rd : RequestData) (s : String) (m : MetaVal),
        FS.read fs (getSnapshotFiles rd).info = some (.txt s) → parseMeta s = some m →
          FS.read fs (getSnapshotFiles rd).data = none → fetchFromSnapshot fs rd = none)
    ∧ (∀ (env : Env) (fs : FS) (rd : RequestData),
        fetchFromSnapshot fs rd = none →
          (recordReplayCore env fs rd).adapterCalls = 1
            ∧ (recordReplaySocketIo env fs rd).adapterCalls = 1) := by
  refine ⟨?_, ?_, ?_, ?_⟩
  · intro fs rd h
    simp [fetchFromSnapshot, h]
  · intro fs rd s h hp
    simp [fetchFromSnapshot, h, hp]
  · intro fs rd s m h hp hd
    simp [fetchFromSnapshot, h, hp, hd]
  · intro env fs rd h
    rcases hfe : fetchFromServer env fs rd with ⟨r, fs1, sv⟩
    rcases hws : fetchFromSocketIoServer env fs rd with ⟨r2, fs2, sv2⟩
    exact ⟨by simp [recordReplayCore, h, hfe], by simp [recordReplaySocketIo, h, hws]⟩

/-- Witness for C5: a truncated metadata artifact is a miss and leads
to one live fetch. -/
theorem snapshot_fail_open_witness :
    fetchFromSnapshot [((getSnapshotFiles sampleRd).info, .txt "\x7b\"head")] sampleRd = none
      ∧ (recordReplayCore sampleEnv [((getSnapshotFiles sampleRd).info, .txt "\x7b\"head")] sampleRd).adapterCalls = 1 := by
  have h1 : FS.read [((getSnapshotFiles sampleRd).info, .txt "\x7b\"head")]
      (getSnapshotFiles sampleRd).info = some (.txt "\x7b\"head") := by
    simp [FS.read, List.find?]
  have hmiss := snapshot_fail_open.2.1 _ sampleRd "\x7b\"head" h1 rfl
  exact ⟨hmiss, (snapshot_fail_open.2.2.2 sampleEnv _ sampleRd hmiss).1⟩

/-- C2: a request whose two snapshot artifacts are present and
parseable is replayed by both orchestrators — stored record returned,
zero adapter calls, zero saves, store untouched; and after a first call
that misses, fetches and saves successfully, the store holds exactly
that state, so every later call with the same fingerprint replays (zero
additional adapter calls, no further saves, store fixed under any
number of repetitions): the record is created once and never modified
afterward. -/
theorem replay_skips_upstream :
    (∀ (env : Env) (fs : FS) (rd : RequestData) (s : String) (m : MetaVal) (d : List Nat),
        FS.read fs (getSnapshotFiles rd).info = some (.txt s) → parseMeta s = some m →
        FS.read fs (getSnapshotFiles rd).data = some (.bin d) →
          recordReplayCore env fs rd = ⟨some ⟨m, d, rd⟩, fs, 0, 0⟩
            ∧ recordReplaySocketIo env fs rd = ⟨some ⟨m, d, rd⟩, fs, 0, 0⟩)
    ∧ (∀ (env : Env) (fs : FS) (rd : RequestData),
        fetchFromSnapshot fs rd = none →
        env.httpOk rd = true →
        cleanPairs (env.httpHeaders rd) →
        env.mkdirOk (getSnapshotFiles rd).directory = true →
        env.writeOk (getSnapshotFiles rd).info = true →
        env.writeOk (getSnapshotFiles rd).data = true →
          recordReplayCore env fs rd
              = ⟨some ⟨.resp (env.httpHeaders rd), env.httpData rd, rd⟩,
                  (FS.write (FS.write fs (getSnapshotFiles rd).info
                      (.txt (stringifyMeta (.resp (env.httpHeaders rd)))))
                    (getSnapshotFiles rd).data (.bin (env.httpData rd))), 1, 1⟩
            ∧ recordReplayCore env
                (FS.write (FS.write fs (getSnapshotFiles rd).info
                    (.txt (stringifyMeta (.resp (env.httpHeaders rd)))))
                  (getSnapshotFiles rd).data (.bin (env.httpData rd))) rd
              = ⟨some ⟨.resp (env.httpHeaders rd), env.httpData rd, rd⟩,
                  (FS.write (FS.write fs (getSnapshotFiles rd).info
                      (.txt (stringifyMeta (.resp (env.httpHeaders rd)))))
                    (getSnapshotFiles rd).data (.bin (env.httpData rd))), 0, 0⟩
            ∧ ∀ n : Nat,
                Nat.iterate (fun g => (recordReplayCore env g rd).fs) n
                  (FS.write (FS.write fs (getSnapshotFiles rd).info
                      (.txt (stringifyMeta (.resp (env.httpHeaders rd)))))
                    (getSnapshotFiles rd).data (.bin (env.httpData rd)))
                = (FS.write (FS.write fs (getSnapshotFiles rd).info
                      (.txt (stringifyMeta (.resp (env.httpHeaders rd)))))
                    (getSnapshotFiles rd).data (.bin (env.httpData rd))))
    ∧ (∀ (env : Env) (fs : FS) (host href data pathname method reply : String),
        fetchFromSnapshot fs (.ws host href data pathname method) = none →
        env.wsReply (.ws host href data pathname method) = some reply →
        cleanStr host → cleanStr href → cleanStr data → cleanStr pathname → cleanStr method →
        env.mkdirOk (getSnapshotFiles (.ws host href data pathname method)).directory = true →
        env.writeOk (getSnapshotFiles (.ws host href data pathname method)).info = true →
        env.writeOk (getSnapshotFiles (.ws host href data pathname method)).data = true →
          recordReplaySocketIo env fs (.ws host href data pathname method)
              = ⟨some ⟨.reqMeta (.ws host href data pathname method), latin1Bytes reply,
                    .ws host href data pathname method⟩,
                  (FS.write (FS.write fs (getSnapshotFiles (.ws host href data pathname method)).info
                      (.txt (stringifyMeta (.reqMeta (.ws host href data pathname method)))))
                    (getSnapshotFiles (.ws host href data pathname method)).data
                    (.bin (latin1Bytes reply))), 1, 1⟩
            ∧ recordReplaySocketIo env
                (FS.write (FS.write fs (getSnapshotFiles (.ws host href data pathname method)).info
                    (.txt (stringifyMeta (.reqMeta (.ws host href data pathname method)))))
                  (getSnapshotFiles (.ws host href data pathname method)).data
                  (.bin (latin1Bytes reply))) (.ws host href data pathname method)
              = ⟨some ⟨.reqMeta (.ws host href data pathname method), latin1Bytes reply,
                    .ws host href data pathname method⟩,
                  (FS.write (FS.write fs (getSnapshotFiles (.ws host href data pathname method)).info
                      (.txt (stringifyMeta (.reqMeta (.ws host href data pathname method)))))
                    (getSnapshotFiles (.ws host href data pathname method)).data
                    (.bin (latin1Bytes reply))), 0, 0⟩) := by
  refine ⟨?_, ?_, ?_⟩
  · intro env fs rd s m d hi hp hd
    have hhit := fetchFromSnapshot_hit fs rd s m (.bin d) hi hp hd
    exact ⟨by simp [recordReplayCore, hhit, FileVal.bytes],
      by simp [recordReplaySocketIo, hhit, FileVal.bytes]⟩
  · intro env fs rd hmiss hok hc hm hi hd
    have hsave := saveSnapshot_success env fs
      ⟨.resp (env.httpHeaders rd), env.httpData rd, rd⟩ hm hi hd
    have hra := read_after_save env fs
      ⟨.resp (env.httpHeaders rd), env.httpData rd, rd⟩ hm hi hd
    rw [hsave] at hra
    have hfirst : recordReplayCore env fs rd
        = ⟨some ⟨.resp (env.httpHeaders rd), env.httpData rd, rd⟩,
            (FS.write (FS.write fs (getSnapshotFiles rd).info
                (.txt (stringifyMeta (.resp (env.httpHeaders rd)))))
              (getSnapshotFiles rd).data (.bin (env.httpData rd))), 1, 1⟩ := by
      simp [recordReplayCore, hmiss, fetchFromServer, hok, hsave]
    have hhit := fetchFromSnapshot_hit _ rd _ _ (.bin (env.httpData rd)) hra.1
      (parseMeta_stringify_resp (env.httpHeaders rd) hc) hra.2
    have hsecond : recordReplayCore env
        (FS.write (FS.write fs (getSnapshotFiles rd).info
            (.txt (stringifyMeta (.resp (env.httpHeaders rd)))))
          (getSnapshotFiles rd).data (.bin (env.httpData rd))) rd
        = ⟨some ⟨.resp (env.httpHeaders rd), env.httpData rd, rd⟩,
            (FS.write (FS.write fs (getSnapshotFiles rd).info
                (.txt (stringifyMeta (.resp (env.httpHeaders rd)))))
              (getSnapshotFiles rd).data (.bin (env.httpData rd))), 0, 0⟩ := by
      simp [recordReplayCore, hhit, FileVal.bytes]
    refine ⟨hfirst, hsecond, ?_⟩
    intro n
    exact Function.iterate_fixed (by rw [hsecond]) n
  · intro env fs host href data pathname method reply hmiss hrep h1 h2 h3 h4 h5 hm hi hd
    have hsave := saveSnapshot_success env fs
      ⟨.reqMeta (.ws host href data pathname method), latin1Bytes reply,
        .ws host href data pathname method⟩ hm hi hd
    have hra := read_after_save env fs
      ⟨.reqMeta (.ws host href data pathname method), latin1Bytes reply,
        .ws host href data pathname method⟩ hm hi hd
    rw [hsave] at hra
    have hhit := fetchFromSnapshot_hit _ (.ws host href data pathname method) _ _
      (.bin (latin1Bytes reply)) hra.1
      (parseMeta_stringify_ws host href data pathname method h1 h2 h3 h4 h5) hra.2
    constructor
    · simp [recordReplaySocketIo, hmiss, fetchFromSocketIoServer, hrep, hsave]
    · simp [recordReplaySocketIo, hhit, FileVal.bytes]

/-- Witness for C2: a concrete first fetch-and-save followed by a
replayed second call with zero adapter calls and zero saves. -/
theorem replay_skips_upstream_witness :
    (recordReplayCore sampleEnv [] sampleRd).adapterCalls = 1
      ∧ (recordReplayCore sampleEnv (recordReplayCore sampleEnv [] sampleRd).fs sampleRd).adapterCalls = 0
      ∧ (recordReplayCore sampleEnv (recordReplayCore sampleEnv [] sampleRd).fs sampleRd).saveCalls = 0
      ∧ (recordReplayCore sampleEnv (recordReplayCore sampleEnv [] sampleRd).fs sampleRd).fs
          = (recordReplayCore sampleEnv [] sampleRd).fs := by
  have h := replay_skips_upstream.2.1 sampleEnv [] sampleRd rfl rfl (by decide) rfl rfl rfl
  refine ⟨by rw [h.1], ?_, ?_, ?_⟩
  · rw [show (recordReplayCore sampleEnv [] sampleRd).fs = _ from congrArg RRRes.fs h.1, h.2.1]
  · rw [show (recordReplayCore sampleEnv [] sampleRd).fs = _ from congrArg RRRes.fs h.1, h.2.1]
  · rw [show (recordReplayCore sampleEnv [] sampleRd).fs = _ from congrArg RRRes.fs h.1, h.2.1]

/-- Counterexample for C3: a successful upstream fetch whose snapshot
save fails does NOT return the fetched data — the single `try/catch`
in `fetchFromServer` also swallows the store-write error, and the call
yields no result. -/
theorem fetch_save_failure_counterexample :
    failWriteEnv.httpOk sampleRd = true
      ∧ (fetchFromServer failWriteEnv [] sampleRd).1 = none := ⟨rfl, rfl⟩

/-- C3 (amended): when the upstream fetch succeeds but the snapshot
save throws, the error is caught and only logged, and the call yields
no result — the freshly fetched data is not returned; the store keeps
whatever the interrupted save wrote. -/
theorem fetch_save_failure (env : Env) (fs : FS) (rd : RequestData)
    (hok : env.httpOk rd = true)
    (hfail : (saveSnapshot env fs
        ⟨.resp (env.httpHeaders rd), env.httpData rd, rd⟩).1 = false) :
    fetchFromServer env fs rd
      = (none, (saveSnapshot env fs
          ⟨.resp (env.httpHeaders rd), env.httpData rd, rd⟩).2, 1) := by
  rcases hs : saveSnapshot env fs ⟨.resp (env.httpHeaders rd), env.httpData rd, rd⟩ with ⟨b, fs1⟩
  rw [hs] at hfail
  simp only at hfail
  subst hfail
  simp [fetchFromServer, hok, hs]

/-- Witness for C3 (amended) at a concrete failing store. -/
theorem fetch_save_failure_witness :
    fetchFromServer failWriteEnv [] sampleRd
      = (none, (saveSnapshot failWriteEnv []
          ⟨.resp (failWriteEnv.httpHeaders sampleRd),
            failWriteEnv.httpData sampleRd, sampleRd⟩).2, 1) :=
  fetch_save_failure failWriteEnv [] sampleRd rfl rfl

/-- C8: saving a snapshot whose payload is an arbitrary byte sequence
(all values in 0x00-0xFF) and loading it back at the same key returns
the payload byte-identical — the payload travels as raw bytes, never
through a text encoding. -/
theorem snapshot_binary_roundtrip (env : Env) (fs : FS) (rd : RequestData)
    (m : MetaVal) (bytes : List Nat)
    (hb : ∀ b ∈ bytes, b < 256)
    (hc : cleanMeta m)
    (hm : env.mkdirOk (getSnapshotFiles rd).directory = true)
    (hi : env.writeOk (getSnapshotFiles rd).info = true)
    (hd : env.writeOk (getSnapshotFiles rd).data = true) :
    fetchFromSnapshot (saveSnapshot env fs ⟨m, bytes, rd⟩).2 rd = some ⟨m, bytes, rd⟩ := by
  have hra := read_after_save env fs ⟨m, bytes, rd⟩ hm hi hd
  exact fetchFromSnapshot_hit _ rd _ m (.bin bytes) hra.1 (parseMeta_stringify m hc) hra.2

/-- Witness for C8 with payload bytes 0x00, 0xFF, 0x80, 0x0A. -/
theorem snapshot_binary_roundtrip_witness :
    fetchFromSnapshot (saveSnapshot sampleEnv []
        ⟨.resp [("content-type", "application/octet-stream")], [0, 255, 128, 10], sampleRd⟩).2 sampleRd
      = some ⟨.resp [("content-type", "application/octet-stream")], [0, 255, 128, 10], sampleRd⟩ :=
  snapshot_binary_roundtrip sampleEnv [] sampleRd _ _ (by decide) (by decide) rfl rfl rfl

theorem containsSub_https (a b c : String) :
    containsSub ("https://" ++ a ++ b ++ c) "http" = true := rfl

/-- The rewrite pipeline of `serveHttpData` followed by
decode-and-parse equals the first-match-wins rule chain, for any
already-routed target string. -/
theorem rewrite_chain_eq (raw : String) (host referer : Option String) :
    (match rewriteUrl raw host referer with
     | .error e => .error e
     | .ok u => chainFinish u)
    = (if containsSub raw "http" then chainFinish raw
       else
         match host with
         | none => .error ()
         | some h =>
           if containsSub h (".localhost:" ++ portStr) then
             chainFinish ("https://" ++ replaceFirst h (".localhost:" ++ portStr) "" ++ "/" ++ raw)
           else
             match referer with
             | some r =>
               if r = "" then chainFinish raw
               else
                 match parseURL (match indexOfSub r "/http" with
                                 | some i => jsSubstringFrom r (i + 1)
                                 | none => r) with
                 | none => .error ()
                 | some u => chainFinish (u.origin ++ "/" ++ raw)
             | none => chainFinish raw) := by
  by_cases hhttp : containsSub raw "http" = true
  · simp [rewriteUrl, hhttp]
  · simp only [Bool.not_eq_true] at hhttp
    cases host with
    | none => simp [rewriteUrl, hhttp]
    | some h =>
      by_cases hl : containsSub h (".localhost:" ++ portStr) = true
      · simp [rewriteUrl, hhttp, hl, containsSub_https]
      · simp only [Bool.not_eq_true] at hl
        cases referer with
        | none => simp [rewriteUrl, hhttp, hl]
        | some r =>
          by_cases hre : r = ""
          · simp [rewriteUrl, hhttp, hl, hre]
          · cases hp : parseURL (match indexOfSub r "/http" with
                | some i => jsSubstringFrom r (i + 1)
                | none => r) with
            | none => simp [rewriteUrl, hhttp, hl, hre, hp]
            | some u => simp [rewriteUrl, hhttp, hl, hre, hp]

/-- Counterexample for C6: a call carrying `url=https://example.com/a`
in its query on a non-root path.  The claim's rule (1) says the
explicit `url=` parameter wins and the call resolves to
`https://example.com/a`; in the code the `url=` extraction only runs on
the root route, the stripped path `a?url=https://example.com/a`
contains `http` so it is used directly, its parse fails, and no
canonical request is produced. -/
theorem target_resolution_counterexample :
    resolveTarget ⟨"/a?url=https://example.com/a", "GET", [("host", "localhost:9001")], ""⟩
      = .ok none := rfl

/-- C6 (amended): target resolution is the first-match-wins chain of
`resolveChainSpec` — (1) the `/?url=` extraction applies only on the
root path, (2) a routed path containing `http` anywhere is used
directly, (3) else a subdomain-encoded host is rewritten to
`https://...`, (4) else the target resolves against the URL embedded in
the Referer (throwing when that URL is unparseable); a target surviving
no rule (or failing decode/parse) produces no canonical request and the
call is served nothing.  In particular the claim's example on the root
path, `/?url=https://example.com/a`, resolves to
`https://example.com/a`. -/
theorem target_resolution_chain :
    (∀ req : InboundReq, resolveTarget req = resolveChainSpec req)
      ∧ resolveTarget ⟨"/?url=https://example.com/a", "GET", [("host", "localhost:9001")], ""⟩
        = .ok (some ⟨"https://example.com/a", "example.com", "/a", "https://example.com"⟩) := by
  constructor
  · intro req
    exact rewrite_chain_eq (routeUrl req.url) (jsGet req.headers "host")
      (jsGet req.headers "referer")
  · rfl

/-- C7 (amended): a failing upstream transport makes the HTTP adapter
yield no result (and touch nothing) instead of raising; whenever the
pre-`try` rewrite step completes, a call that produces no data is
answered with an empty body, no Content-Type and no explicit status;
and the only way an exception escapes `serveHttpData` is the rewrite
step itself throwing (absent Host header on a relative target, or a
Referer with no parseable embedded URL). -/
theorem no_response_empty_body :
    (∀ (env : Env) (fs : FS) (rd : RequestData),
        env.httpOk rd = false → fetchFromServer env fs rd = (none, fs, 0))
    ∧ (∀ (env : Env) (fs : FS) (req : InboundReq) (u : String),
        rewriteUrl (routeUrl req.url) (jsGet req.headers "host") (jsGet req.headers "referer")
            = .ok u →
        (recordReplayData env fs { req with url := u }).result = none →
          handleHttp env fs req
            = .ok (emptyResp, (recordReplayData env fs { req with url := u }).fs))
    ∧ (∀ (env : Env) (fs : FS) (req : InboundReq),
        handleHttp env fs req = .error () →
          rewriteUrl (routeUrl req.url) (jsGet req.headers "host") (jsGet req.headers "referer")
            = .error ()) := by
  refine ⟨?_, ?_, ?_⟩
  · intro env fs rd h
    simp [fetchFromServer, h]
  · intro env fs req u hrw hres
    simp only [handleHttp, serveHttpData, hrw, hres]
  · intro env fs req herr
    cases hrw : rewriteUrl (routeUrl req.url) (jsGet req.headers "host")
        (jsGet req.headers "referer") with
    | error e => cases e; rfl
    | ok u =>
      exfalso
      rcases hres : (recordReplayData env fs { req with url := u }).result with _ | sd
      · simp [handleHttp, serveHttpData, hrw, hres] at herr
      · rcases hmh : metaHeaders sd.info with _ | hs
        · simp [handleHttp, serveHttpData, hrw, hres, hmh] at herr
        · simp [handleHttp, serveHttpData, hrw, hres, hmh] at herr

/-- Witness for C7 (amended): a relative target with a Host header, no
Referer and an unreachable upstream — the caller gets an empty body,
with no Content-Type and no status set. -/
theorem no_response_empty_body_witness :
    handleHttp failHttpEnv [] ⟨"/nope", "GET", [("host", "example.com")], ""⟩
      = .ok (emptyResp,
          (recordReplayData failHttpEnv []
            ⟨"nope", "GET", [("host", "example.com")], ""⟩).fs) :=
  no_response_empty_body.2.1 failHttpEnv [] ⟨"/nope", "GET", [("host", "example.com")], ""⟩
    "nope" rfl rfl

/-- Counterexample for C7: an inbound call that can produce no response
(relative path, no snapshot, referer `bar` carrying no URL) makes the
pre-`try` rewrite throw: the exception escapes `serveHttpData` instead
of the caller receiving an empty body. -/
theorem no_response_counterexample :
    handleHttp sampleEnv [] ⟨"/foo", "GET", [("host", "example.com"), ("referer", "bar")], ""⟩
      = .error () := rfl

end MockSrv
